import Mathlib

/-!
Verification of the `purellvmpy` IR builder (`purellvmpy/core/builder.py`).

The repository ships only `builder.py`; the `llvalues` and `lltypes`
modules it imports (types, values, instructions, blocks and the
instruction container) are not part of the sources, so those parts are
modelled from the specification document, as marked on each definition.
All builder logic is translated directly from `builder.py`.
-/

/-- Modelled from the spec: `lltypes` type descriptors — opaque,
value-comparable descriptors such as integer-of-width-N and pointer-to-T,
with structural equality (spec section 3, "Type Descriptor"). -/
inductive Ty where
  | int : Nat → Ty
  | flt : Ty
  | ptr : Ty → Ty
deriving DecidableEq

/-- Modelled from the spec: `llvalues` values.  A Value is either a
Constant (a type plus a literal payload) or an Instruction (parent
function back-reference, optional result type, opcode, ordered operand
Values, optional name); Terminator is an Instruction with no result
type.  Blocks appearing as branch-target operands are represented by
their label (`blockRef`), since the spec treats them as back-referenced
graph nodes rather than owned operands. -/
inductive Value where
  | constant (ty : Ty) (val : Int)
  | instruction (parent : Nat) (rty : Option Ty) (opcode : String)
      (operands : List Value) (name : String)
  | blockRef (label : Nat)

mutual

/-- Structural equality on Values (Python `==` on the modelled
`llvalues` objects; spec: type equality is structural, Constants have
no identity beyond value equality). -/
def Value.beq : Value → Value → Bool
  | .constant t v, .constant t' v' => t == t' && v == v'
  | .instruction p r o ops n, .instruction p' r' o' ops' n' =>
      p == p' && r == r' && o == o' && Value.beqList ops ops' && n == n'
  | .blockRef l, .blockRef l' => l == l'
  | _, _ => false

/-- Pointwise `Value.beq` on operand lists. -/
def Value.beqList : List Value → List Value → Bool
  | [], [] => true
  | a :: as, b :: bs => Value.beq a b && Value.beqList as bs
  | _, _ => false

end

mutual

def Value.beq_refl : ∀ (a : Value), Value.beq a a = true
  | .constant t v => by simp [Value.beq]
  | .instruction p r o ops n => by
      simp [Value.beq, Value.beqList_refl ops]
  | .blockRef l => by simp [Value.beq]

def Value.beqList_refl : ∀ (l : List Value), Value.beqList l l = true
  | [] => rfl
  | a :: as => by
      simp [Value.beqList, Value.beq_refl a, Value.beqList_refl as]

end

mutual

def Value.eq_of_beq : ∀ {a b : Value}, Value.beq a b = true → a = b
  | .constant _ _, .constant _ _, h => by
      simp [Value.beq] at h
      simp [h.1, h.2]
  | .instruction _ _ _ ops _, .instruction _ _ _ ops' _, h => by
      simp [Value.beq] at h
      obtain ⟨⟨⟨⟨h1, h2⟩, h3⟩, h4⟩, h5⟩ := h
      have := Value.eqList_of_beqList h4
      simp [h1, h2, h3, h5, this]
  | .blockRef _, .blockRef _, h => by
      simp [Value.beq] at h
      simp [h]
  | .constant _ _, .instruction _ _ _ _ _, h => by simp [Value.beq] at h
  | .constant _ _, .blockRef _, h => by simp [Value.beq] at h
  | .instruction _ _ _ _ _, .constant _ _, h => by simp [Value.beq] at h
  | .instruction _ _ _ _ _, .blockRef _, h => by simp [Value.beq] at h
  | .blockRef _, .constant _ _, h => by simp [Value.beq] at h
  | .blockRef _, .instruction _ _ _ _ _, h => by simp [Value.beq] at h

def Value.eqList_of_beqList :
    ∀ {a b : List Value}, Value.beqList a b = true → a = b
  | [], [], _ => rfl
  | a :: as, b :: bs, h => by
      simp [Value.beqList] at h
      have h1 := Value.eq_of_beq h.1
      have h2 := Value.eqList_of_beqList h.2
      simp [h1, h2]
  | [], _ :: _, h => by simp [Value.beqList] at h
  | _ :: _, [], h => by simp [Value.beqList] at h

end

instance : DecidableEq Value := fun a b =>
  if h : Value.beq a b = true then
    isTrue (Value.eq_of_beq h)
  else
    isFalse (fun he => h (he ▸ Value.beq_refl a))

/-- The `type` attribute of a Value (`none` for value-less instructions
such as terminators and for block references). -/
def Value.type : Value → Option Ty
  | .constant ty _ => some ty
  | .instruction _ rty _ _ _ => rty
  | .blockRef _ => none

/-- Opcode of an instruction Value (`none` for non-instructions). -/
def Value.opcode : Value → Option String
  | .instruction _ _ op _ _ => some op
  | _ => none

/-- Operand list of an instruction Value (`[]` for non-instructions). -/
def Value.operands : Value → List Value
  | .instruction _ _ _ ops _ => ops
  | _ => []

/-- Modelled from the spec: a basic block owns an ordered sequence of
non-terminator instructions, an optional terminator (absent while the
block is open) and a back-reference to its owning function
(spec section 3, "Basic Block"). -/
structure Block where
  parent : Nat
  instructions : List Value
  terminator : Option Value
deriving DecidableEq

/-- Modelled from the spec: `Block.is_terminated` — a block is closed
exactly when its terminator is present (spec: "absence means the block
is not yet closed"). -/
def Block.isTerminated (b : Block) : Bool :=
  b.terminator.isSome

/-- Builder state: the current block and the insertion anchor
(`IRBuilder.__init__` sets the anchor to the block's instruction count). -/
structure IRBuilder where
  block : Block
  anchor : Nat
deriving DecidableEq

/-- `IRBuilder(block)` — a fresh builder positioned at the end of `block`. -/
def IRBuilder.new (b : Block) : IRBuilder :=
  ⟨b, b.instructions.length⟩

/-- The `function` property: `self.block.parent`. -/
def IRBuilder.function (s : IRBuilder) : Nat :=
  s.block.parent

/-- Python `list.insert(i, x)` semantics: the index is clamped to the
list length, so inserting at or past the end appends. -/
def pyInsertAt (l : List Value) (i : Nat) (x : Value) : List Value :=
  l.take i ++ x :: l.drop i

/-- Modelled from the spec: the instruction container's `find`, which
returns the index of the instruction or a "not found" sentinel (the
Python convention, -1) when the instruction is not in the sequence
(spec section 4.1: "find returns a not-found sentinel in source"). -/
def findIdx : List Value → Value → Nat → Int
  | [], _, _ => -1
  | x :: xs, v, i => if x = v then Int.ofNat i else findIdx xs v (i + 1)

/-- `instructions.find(instr)` starting from index 0. -/
def find (l : List Value) (v : Value) : Int :=
  findIdx l v 0

/-- The `_CMP_MAP` dictionary, as a partial lookup: a missing key is
`none` (a Python `KeyError` on subscript). -/
def CMP_MAP : String → Option String
  | ">" => some "gt"
  | "<" => some "lt"
  | "==" => some "eq"
  | "!=" => some "ne"
  | ">=" => some "ge"
  | "<=" => some "le"
  | _ => none

/-- Error taxonomy of the spec (section 7); the source raises these as
assertion/lookup failures, named here per the spec's taxonomy. -/
inductive BuilderError where
  | typeMismatch
  | alreadyTerminated
  | invalidArgument
  | keyError
deriving DecidableEq

instance : DecidableEq (Except BuilderError Value) := fun a b =>
  match a, b with
  | .ok x, .ok y =>
    if h : x = y then isTrue (congrArg Except.ok h)
    else isFalse (fun he => h (Except.ok.inj he))
  | .error x, .error y =>
    if h : x = y then isTrue (congrArg Except.error h)
    else isFalse (fun he => h (Except.error.inj he))
  | .ok _, .error _ => isFalse (fun he => Except.noConfusion he)
  | .error _, .ok _ => isFalse (fun he => Except.noConfusion he)

/-- `IRBuilder.position_before(instr)`:
`self._anchor = max(0, self._block.instructions.find(instr) - 1)`.
Note that the current block is not changed. -/
def IRBuilder.positionBefore (s : IRBuilder) (instr : Value) : IRBuilder :=
  { s with anchor := (max 0 (find s.block.instructions instr - 1)).toNat }

/-- `IRBuilder.position_after(instr)`:
`self._anchor = min(self._block.instructions.find(instr) + 1, len(...))`. -/
def IRBuilder.positionAfter (s : IRBuilder) (instr : Value) : IRBuilder :=
  { s with anchor :=
      (min (find s.block.instructions instr + 1)
        (Int.ofNat s.block.instructions.length)).toNat }

/-- `IRBuilder.position_at_start(block)`. -/
def IRBuilder.positionAtStart (s : IRBuilder) (b : Block) : IRBuilder :=
  { s with block := b, anchor := 0 }

/-- `IRBuilder.position_at_end(block)`. -/
def IRBuilder.positionAtEnd (s : IRBuilder) (b : Block) : IRBuilder :=
  { s with block := b, anchor := b.instructions.length }

/-- `IRBuilder._insert(instr)`: insert into the current block's
instruction sequence at the anchor, then advance the anchor. -/
def IRBuilder.insertInstr (s : IRBuilder) (instr : Value) : IRBuilder :=
  { block := { s.block with
      instructions := pyInsertAt s.block.instructions s.anchor instr },
    anchor := s.anchor + 1 }

/-- `IRBuilder._set_terminator(term)`: asserts the block is not yet
terminated, stores the terminator, returns it.  Builder operations
return the (possibly unchanged) builder state alongside the result so
that failure paths visibly leave the state intact. -/
def IRBuilder.setTerminator (s : IRBuilder) (term : Value) :
    Except BuilderError Value × IRBuilder :=
  if s.block.isTerminated then
    (.error .alreadyTerminated, s)
  else
    (.ok term, { s with block := { s.block with terminator := some term } })

/-- The `_binop` wrapper: assert `lhs.type == rhs.type`, build
`Instruction(self.function, lhs.type, opname, (lhs, rhs), name)`,
insert it, return it. -/
def IRBuilder.binop (opname : String) (s : IRBuilder) (lhs rhs : Value)
    (name : String) : Except BuilderError Value × IRBuilder :=
  if lhs.type = rhs.type then
    let instr := Value.instruction s.function lhs.type opname [lhs, rhs] name
    (.ok instr, s.insertInstr instr)
  else
    (.error .typeMismatch, s)

/-- `IRBuilder.add`. -/
def IRBuilder.add (s : IRBuilder) (lhs rhs : Value) (name : String) :=
  IRBuilder.binop "add" s lhs rhs name

/-- `IRBuilder.sub`. -/
def IRBuilder.sub (s : IRBuilder) (lhs rhs : Value) (name : String) :=
  IRBuilder.binop "sub" s lhs rhs name

/-- `IRBuilder.mul`. -/
def IRBuilder.mul (s : IRBuilder) (lhs rhs : Value) (name : String) :=
  IRBuilder.binop "mul" s lhs rhs name

/-- `IRBuilder.udiv`. -/
def IRBuilder.udiv (s : IRBuilder) (lhs rhs : Value) (name : String) :=
  IRBuilder.binop "udiv" s lhs rhs name

/-- `IRBuilder.sdiv`. -/
def IRBuilder.sdiv (s : IRBuilder) (lhs rhs : Value) (name : String) :=
  IRBuilder.binop "sdiv" s lhs rhs name

/-- Modelled from the spec: `llvalues.ICMPInstr` — a comparison
instruction whose result type is the boolean/1-bit type and whose
operands are `(lhs, rhs)` (spec section 4.3). -/
def ICMPInstr (fn : Nat) (op : String) (lhs rhs : Value) (name : String) :
    Value :=
  Value.instruction fn (some (Ty.int 1)) op [lhs, rhs] name

/-- Modelled from the spec: `llvalues.FCMPInstr`, shaped like
`ICMPInstr` (spec section 4.3). -/
def FCMPInstr (fn : Nat) (op : String) (lhs rhs : Value) (name : String) :
    Value :=
  Value.instruction fn (some (Ty.int 1)) op [lhs, rhs] name

/-- `IRBuilder.icmp_signed`: look the symbol up in `_CMP_MAP` (a missing
key raises), prepend `s` unless the symbol is `==` or `!=`, insert. -/
def IRBuilder.icmpSigned (s : IRBuilder) (cmpop : String) (lhs rhs : Value)
    (name : String) : Except BuilderError Value × IRBuilder :=
  match CMP_MAP cmpop with
  | none => (.error .keyError, s)
  | some base =>
    let op := if cmpop = "==" ∨ cmpop = "!=" then base else "s" ++ base
    let instr := ICMPInstr s.function op lhs rhs name
    (.ok instr, s.insertInstr instr)

/-- `IRBuilder.icmp_unsigned`: as `icmp_signed` with a `u` marker. -/
def IRBuilder.icmpUnsigned (s : IRBuilder) (cmpop : String) (lhs rhs : Value)
    (name : String) : Except BuilderError Value × IRBuilder :=
  match CMP_MAP cmpop with
  | none => (.error .keyError, s)
  | some base =>
    let op := if cmpop = "==" ∨ cmpop = "!=" then base else "u" ++ base
    let instr := ICMPInstr s.function op lhs rhs name
    (.ok instr, s.insertInstr instr)

/-- `IRBuilder.fcmp_ordered`: an `o`-marked predicate when the symbol is
in `_CMP_MAP`, otherwise the raw string passes through unchanged. -/
def IRBuilder.fcmpOrdered (s : IRBuilder) (cmpop : String) (lhs rhs : Value)
    (name : String) : Except BuilderError Value × IRBuilder :=
  let op := match CMP_MAP cmpop with
    | some base => "o" ++ base
    | none => cmpop
  let instr := FCMPInstr s.function op lhs rhs name
  (.ok instr, s.insertInstr instr)

/-- `IRBuilder.fcmp_unordered`: as `fcmp_ordered` with a `u` marker. -/
def IRBuilder.fcmpUnordered (s : IRBuilder) (cmpop : String) (lhs rhs : Value)
    (name : String) : Except BuilderError Value × IRBuilder :=
  let op := match CMP_MAP cmpop with
    | some base => "u" ++ base
    | none => cmpop
  let instr := FCMPInstr s.function op lhs rhs name
  (.ok instr, s.insertInstr instr)

/-- The `count` argument of `alloca`: `None`, a Value, or a raw Python
integer (spec section 9 models it as exactly this tagged union). -/
inductive CountArg where
  | none
  | value (v : Value)
  | int (n : Int)
deriving DecidableEq

/-- Modelled from the spec: `llvalues.AllocaInstr` — opcode `alloca`,
result type pointer-to-`typ`, operand the possibly-absent count
(spec section 4.5). -/
def AllocaInstr (fn : Nat) (typ : Ty) (count : Option Value) (name : String) :
    Value :=
  Value.instruction fn (some (Ty.ptr typ)) "alloca" count.toList name

/-- `IRBuilder.alloca`: asserts `count is None or count > 0` (under the
source's Python-2 comparison rules a Value instance compares greater
than an integer, so a Value count passes the assert), wraps a raw
integer count into `Constant(IntType(32), int(count))`, inserts. -/
def IRBuilder.alloca (s : IRBuilder) (typ : Ty) (count : CountArg)
    (name : String) : Except BuilderError Value × IRBuilder :=
  match count with
  | .none =>
    let al := AllocaInstr s.function typ Option.none name
    (.ok al, s.insertInstr al)
  | .value v =>
    let al := AllocaInstr s.function typ (some v) name
    (.ok al, s.insertInstr al)
  | .int n =>
    if 0 < n then
      let al := AllocaInstr s.function typ
        (some (Value.constant (Ty.int 32) n)) name
      (.ok al, s.insertInstr al)
    else
      (.error .invalidArgument, s)

/-- Modelled from the spec: `llvalues.Terminator` — an instruction
specialisation with no result type (spec sections 3 and 4.6). -/
def Terminator (fn : Nat) (opcode : String) (operands : List Value) : Value :=
  Value.instruction fn Option.none opcode operands ""

/-- `IRBuilder.jump(target)`: `Terminator(self.function, "br", [target])`
handed to `_set_terminator`. -/
def IRBuilder.jump (s : IRBuilder) (target : Nat) :
    Except BuilderError Value × IRBuilder :=
  s.setTerminator (Terminator s.function "br" [Value.blockRef target])

/-- `IRBuilder.branch(cond, truebr, falsebr)`. -/
def IRBuilder.branch (s : IRBuilder) (cond : Value) (truebr falsebr : Nat) :
    Except BuilderError Value × IRBuilder :=
  s.setTerminator
    (Terminator s.function "br"
      [cond, Value.blockRef truebr, Value.blockRef falsebr])

/-- `IRBuilder.ret_void()`. -/
def IRBuilder.retVoid (s : IRBuilder) :
    Except BuilderError Value × IRBuilder :=
  s.setTerminator (Terminator s.function "ret void" [])

/-- `IRBuilder.ret(value)`. -/
def IRBuilder.ret (s : IRBuilder) (value : Value) :
    Except BuilderError Value × IRBuilder :=
  s.setTerminator (Terminator s.function "ret" [value])

/-!  Concrete values used by witnesses and counterexamples. -/

/-- A 32-bit integer constant. -/
def c32 (n : Int) : Value := Value.constant (Ty.int 32) n

/-- An 8-bit integer constant. -/
def c8 (n : Int) : Value := Value.constant (Ty.int 8) n

/-- An empty, open block of function 0. -/
def emptyBlock : Block := ⟨0, [], Option.none⟩

/-- A builder freshly positioned on `emptyBlock`. -/
def b0 : IRBuilder := IRBuilder.new emptyBlock

/-- The opcode carried by the `ok` result of a builder call. -/
def opcodeOf (r : Except BuilderError Value × IRBuilder) : Option String :=
  match r.1 with
  | .ok v => v.opcode
  | .error _ => Option.none

/-- A block that is already terminated. -/
def termBlock : Block := ⟨0, [], some (Terminator 0 "ret void" [])⟩

/-- A builder sitting on the terminated `termBlock`. -/
def sT : IRBuilder := ⟨termBlock, 0⟩

/-- A block holding one instruction, for the tail-append example. -/
def blkE : Block := ⟨0, [c32 9], Option.none⟩

/-- A sample instruction value used in the repositioning examples. -/
def iB : Value := Value.instruction 0 (some (Ty.int 32)) "add" [] "x"

/-- An empty block of function 0; the cursor of `sA` sits here. -/
def blkA : Block := ⟨0, [], Option.none⟩

/-- A block of function 1 that contains `iB`. -/
def blkB : Block := ⟨1, [iB], Option.none⟩

/-- A builder positioned on `blkA`, while `iB` lives in `blkB`. -/
def sA : IRBuilder := ⟨blkA, 0⟩

/-- A block containing `iB` at index 1. -/
def blkC : Block := ⟨0, [c32 9, iB], Option.none⟩

/-- A builder positioned at the start of `blkC`. -/
def sC : IRBuilder := ⟨blkC, 0⟩

/-- A builder with two instructions and the anchor at the end. -/
def sD : IRBuilder := ⟨⟨0, [c32 1, c32 2], Option.none⟩, 2⟩

/-!  Helper lemmas about the insertion primitive and `find`. -/

theorem pyInsertAt_length (l : List Value) (i : Nat) (x : Value) :
    (pyInsertAt l i x).length = l.length + 1 := by
  simp [pyInsertAt]
  omega

theorem pyInsertAt_at_end (l : List Value) (x : Value) :
    pyInsertAt l l.length x = l ++ [x] := by
  simp [pyInsertAt]

theorem findIdx_not_mem :
    ∀ (l : List Value) (v : Value) (i : Nat), v ∉ l → findIdx l v i = -1
  | [], _, _, _ => rfl
  | x :: xs, v, i, h => by
      rw [List.mem_cons, not_or] at h
      rw [findIdx, if_neg (fun e => h.1 e.symm)]
      exact findIdx_not_mem xs v (i + 1) h.2

theorem find_not_mem (l : List Value) (v : Value) (h : v ∉ l) :
    find l v = -1 :=
  findIdx_not_mem l v 0 h

/-- `add` (or any `_binop` constructor) at the end of the block appends
the new instruction; used to chain sequential emission. -/
theorem add_at_end (s : IRBuilder) (lhs rhs : Value) (nm : String)
    (h : lhs.type = rhs.type) (ha : s.anchor = s.block.instructions.length) :
    ∃ i, s.add lhs rhs nm =
      (.ok i,
       ⟨⟨s.block.parent, s.block.instructions ++ [i], s.block.terminator⟩,
        s.anchor + 1⟩) := by
  refine ⟨Value.instruction s.function lhs.type "add" [lhs, rhs] nm, ?_⟩
  simp only [IRBuilder.add, IRBuilder.binop]
  rw [if_pos h]
  simp only [IRBuilder.insertInstr, ha, pyInsertAt_at_end]

/-!  Claim theorems. -/

/-- C3: for Values `lhs`, `rhs` with structurally equal types,
`add(lhs, rhs)` returns a new Instruction whose opcode is `add`, whose
result type equals `lhs.type` and whose operands are exactly
`(lhs, rhs)` in that order, and inserts that instruction into the
current block at the cursor, advancing the anchor past it. -/
theorem add_builds_and_inserts (s : IRBuilder) (lhs rhs : Value)
    (nm : String) (h : lhs.type = rhs.type) :
    ∃ i, (s.add lhs rhs nm).1 = .ok i ∧
      i.opcode = some "add" ∧
      i.type = lhs.type ∧
      i.operands = [lhs, rhs] ∧
      (s.add lhs rhs nm).2.block.instructions
        = s.block.instructions.take s.anchor
          ++ i :: s.block.instructions.drop s.anchor ∧
      (s.add lhs rhs nm).2.anchor = s.anchor + 1 := by
  refine ⟨Value.instruction s.function lhs.type "add" [lhs, rhs] nm, ?_⟩
  have e : s.add lhs rhs nm =
      (.ok (Value.instruction s.function lhs.type "add" [lhs, rhs] nm),
       s.insertInstr
         (Value.instruction s.function lhs.type "add" [lhs, rhs] nm)) := by
    simp only [IRBuilder.add, IRBuilder.binop]
    rw [if_pos h]
  rw [e]
  exact ⟨rfl, rfl, rfl, rfl, rfl, rfl⟩

theorem add_builds_and_inserts_witness :
    (c32 1).type = (c32 2).type ∧
    ∃ i, (b0.add (c32 1) (c32 2) "x").1 = .ok i ∧
      i.opcode = some "add" ∧
      i.type = (c32 1).type ∧
      i.operands = [c32 1, c32 2] ∧
      (b0.add (c32 1) (c32 2) "x").2.block.instructions
        = b0.block.instructions.take b0.anchor
          ++ i :: b0.block.instructions.drop b0.anchor ∧
      (b0.add (c32 1) (c32 2) "x").2.anchor = b0.anchor + 1 :=
  ⟨rfl, add_builds_and_inserts b0 (c32 1) (c32 2) "x" rfl⟩

/-- C2: for Values `lhs`, `rhs` whose types differ structurally, every
arithmetic constructor (`add`, `sub`, `mul`, `udiv`, `sdiv`) fails with
`TypeMismatchError` and returns the builder state unchanged — in
particular the target block's instruction sequence is exactly what it
was before the call. -/
theorem binop_type_mismatch (s : IRBuilder) (lhs rhs : Value) (nm : String)
    (h : lhs.type ≠ rhs.type) :
    s.add lhs rhs nm = (.error .typeMismatch, s) ∧
    s.sub lhs rhs nm = (.error .typeMismatch, s) ∧
    s.mul lhs rhs nm = (.error .typeMismatch, s) ∧
    s.udiv lhs rhs nm = (.error .typeMismatch, s) ∧
    s.sdiv lhs rhs nm = (.error .typeMismatch, s) ∧
    (s.add lhs rhs nm).2.block.instructions = s.block.instructions := by
  have e : ∀ opname, IRBuilder.binop opname s lhs rhs nm
      = (.error .typeMismatch, s) := by
    intro opname
    simp only [IRBuilder.binop]
    rw [if_neg h]
  refine ⟨e "add", e "sub", e "mul", e "udiv", e "sdiv", ?_⟩
  rw [show s.add lhs rhs nm = (.error .typeMismatch, s) from e "add"]

theorem binop_type_mismatch_witness :
    (c32 1).type ≠ (c8 1).type ∧
    (b0.add (c32 1) (c8 1) "" = (.error .typeMismatch, b0) ∧
     b0.sub (c32 1) (c8 1) "" = (.error .typeMismatch, b0) ∧
     b0.mul (c32 1) (c8 1) "" = (.error .typeMismatch, b0) ∧
     b0.udiv (c32 1) (c8 1) "" = (.error .typeMismatch, b0) ∧
     b0.sdiv (c32 1) (c8 1) "" = (.error .typeMismatch, b0) ∧
     (b0.add (c32 1) (c8 1) "").2.block.instructions
       = b0.block.instructions) :=
  ⟨by decide, binop_type_mismatch b0 (c32 1) (c8 1) "" (by decide)⟩


/-- C4: the comparison constructors resolve the predicate string from
the symbol table gt/lt/eq/ne/ge/le, with `icmp_signed` putting `s` in
front except for eq/ne, `icmp_unsigned` putting `u` in front likewise,
`fcmp_ordered` putting `o` in front and `fcmp_unordered` putting `u` in
front of every recognised symbol, while both fcmp variants pass an
unrecognised cmpop string through unchanged.  In particular
`icmp_signed('<')` gives "slt", `icmp_signed('==')` gives "eq",
`icmp_unsigned('>=')` gives "uge", `fcmp_ordered('!=')` gives "one" and
`fcmp_unordered('<=')` gives "ule". -/
theorem cmp_predicate_resolution (s : IRBuilder) (lhs rhs : Value)
    (nm : String) (cmpop : String) (h : CMP_MAP cmpop = Option.none) :
    (opcodeOf (s.icmpSigned ">" lhs rhs nm) = some "sgt" ∧
     opcodeOf (s.icmpSigned "<" lhs rhs nm) = some "slt" ∧
     opcodeOf (s.icmpSigned "==" lhs rhs nm) = some "eq" ∧
     opcodeOf (s.icmpSigned "!=" lhs rhs nm) = some "ne" ∧
     opcodeOf (s.icmpSigned ">=" lhs rhs nm) = some "sge" ∧
     opcodeOf (s.icmpSigned "<=" lhs rhs nm) = some "sle") ∧
    (opcodeOf (s.icmpUnsigned ">" lhs rhs nm) = some "ugt" ∧
     opcodeOf (s.icmpUnsigned "<" lhs rhs nm) = some "ult" ∧
     opcodeOf (s.icmpUnsigned "==" lhs rhs nm) = some "eq" ∧
     opcodeOf (s.icmpUnsigned "!=" lhs rhs nm) = some "ne" ∧
     opcodeOf (s.icmpUnsigned ">=" lhs rhs nm) = some "uge" ∧
     opcodeOf (s.icmpUnsigned "<=" lhs rhs nm) = some "ule") ∧
    (opcodeOf (s.fcmpOrdered ">" lhs rhs nm) = some "ogt" ∧
     opcodeOf (s.fcmpOrdered "<" lhs rhs nm) = some "olt" ∧
     opcodeOf (s.fcmpOrdered "==" lhs rhs nm) = some "oeq" ∧
     opcodeOf (s.fcmpOrdered "!=" lhs rhs nm) = some "one" ∧
     opcodeOf (s.fcmpOrdered ">=" lhs rhs nm) = some "oge" ∧
     opcodeOf (s.fcmpOrdered "<=" lhs rhs nm) = some "ole") ∧
    (opcodeOf (s.fcmpUnordered ">" lhs rhs nm) = some "ugt" ∧
     opcodeOf (s.fcmpUnordered "<" lhs rhs nm) = some "ult" ∧
     opcodeOf (s.fcmpUnordered "==" lhs rhs nm) = some "ueq" ∧
     opcodeOf (s.fcmpUnordered "!=" lhs rhs nm) = some "une" ∧
     opcodeOf (s.fcmpUnordered ">=" lhs rhs nm) = some "uge" ∧
     opcodeOf (s.fcmpUnordered "<=" lhs rhs nm) = some "ule") ∧
    (opcodeOf (s.fcmpOrdered cmpop lhs rhs nm) = some cmpop ∧
     opcodeOf (s.fcmpUnordered cmpop lhs rhs nm) = some cmpop) := by
  refine ⟨⟨rfl, rfl, rfl, rfl, rfl, rfl⟩, ⟨rfl, rfl, rfl, rfl, rfl, rfl⟩,
    ⟨rfl, rfl, rfl, rfl, rfl, rfl⟩, ⟨rfl, rfl, rfl, rfl, rfl, rfl⟩, ?_, ?_⟩
  · simp only [opcodeOf, IRBuilder.fcmpOrdered, h]
    rfl
  · simp only [opcodeOf, IRBuilder.fcmpUnordered, h]
    rfl

theorem cmp_predicate_resolution_witness :
    CMP_MAP "uno" = Option.none ∧
    (opcodeOf (b0.fcmpOrdered "uno" (c32 1) (c32 2) "") = some "uno" ∧
     opcodeOf (b0.fcmpUnordered "uno" (c32 1) (c32 2) "") = some "uno") :=
  ⟨rfl, (cmp_predicate_resolution b0 (c32 1) (c32 2) "" "uno" rfl).2.2.2.2⟩

/-- C10: for a cmpop string outside the six recognised symbols,
`icmp_signed` and `icmp_unsigned` fail on the predicate lookup (a
`KeyError` on `_CMP_MAP`) with the builder state — in particular the
block's instruction sequence — unchanged, while `fcmp_ordered` and
`fcmp_unordered` accept the raw string and build an instruction with
it, so the integer variants have no pass-through escape hatch. -/
theorem icmp_unknown_cmpop (s : IRBuilder) (cmpop : String)
    (lhs rhs : Value) (nm : String) (h : CMP_MAP cmpop = Option.none) :
    s.icmpSigned cmpop lhs rhs nm = (.error .keyError, s) ∧
    s.icmpUnsigned cmpop lhs rhs nm = (.error .keyError, s) ∧
    (s.fcmpOrdered cmpop lhs rhs nm).1
      = .ok (FCMPInstr s.function cmpop lhs rhs nm) ∧
    (s.fcmpUnordered cmpop lhs rhs nm).1
      = .ok (FCMPInstr s.function cmpop lhs rhs nm) := by
  refine ⟨?_, ?_, ?_, ?_⟩ <;>
    simp only [IRBuilder.icmpSigned, IRBuilder.icmpUnsigned,
      IRBuilder.fcmpOrdered, IRBuilder.fcmpUnordered, h]

theorem icmp_unknown_cmpop_witness :
    CMP_MAP "foo" = Option.none ∧
    (b0.icmpSigned "foo" (c32 1) (c32 2) "" = (.error .keyError, b0) ∧
     b0.icmpUnsigned "foo" (c32 1) (c32 2) "" = (.error .keyError, b0) ∧
     (b0.fcmpOrdered "foo" (c32 1) (c32 2) "").1
       = .ok (FCMPInstr b0.function "foo" (c32 1) (c32 2) "") ∧
     (b0.fcmpUnordered "foo" (c32 1) (c32 2) "").1
       = .ok (FCMPInstr b0.function "foo" (c32 1) (c32 2) "")) :=
  ⟨rfl, icmp_unknown_cmpop b0 "foo" (c32 1) (c32 2) "" rfl⟩

/-- C7: all four terminator operations go through the single
`set_terminator` precondition.  On a block whose terminator is already
set, each of `jump`, `branch`, `ret_void` and `ret` fails with
`AlreadyTerminatedError` and leaves the builder state — the block's
terminator and instruction sequence included — unchanged; on an
unterminated block each stores its terminator in the block's terminator
slot and returns it, touching neither the instruction sequence nor the
anchor. -/
theorem terminator_ops_single_shot (s : IRBuilder) (target tb fb : Nat)
    (cond v : Value) :
    (s.block.isTerminated = true →
      s.jump target = (.error .alreadyTerminated, s) ∧
      s.branch cond tb fb = (.error .alreadyTerminated, s) ∧
      s.retVoid = (.error .alreadyTerminated, s) ∧
      s.ret v = (.error .alreadyTerminated, s)) ∧
    (s.block.isTerminated = false →
      (∃ t, s.jump target
        = (.ok t, ⟨⟨s.block.parent, s.block.instructions, some t⟩,
            s.anchor⟩)) ∧
      (∃ t, s.branch cond tb fb
        = (.ok t, ⟨⟨s.block.parent, s.block.instructions, some t⟩,
            s.anchor⟩)) ∧
      (∃ t, s.retVoid
        = (.ok t, ⟨⟨s.block.parent, s.block.instructions, some t⟩,
            s.anchor⟩)) ∧
      (∃ t, s.ret v
        = (.ok t, ⟨⟨s.block.parent, s.block.instructions, some t⟩,
            s.anchor⟩))) := by
  constructor
  · intro h
    have e : ∀ t, s.setTerminator t = (.error .alreadyTerminated, s) := by
      intro t
      rw [IRBuilder.setTerminator, if_pos h]
    exact ⟨e _, e _, e _, e _⟩
  · intro h
    have e : ∀ t, s.setTerminator t
        = (.ok t, ⟨⟨s.block.parent, s.block.instructions, some t⟩,
            s.anchor⟩) := by
      intro t
      rw [IRBuilder.setTerminator, if_neg (by simp [h])]
    exact ⟨⟨_, e _⟩, ⟨_, e _⟩, ⟨_, e _⟩, ⟨_, e _⟩⟩

theorem terminator_ops_single_shot_witness :
    (sT.block.isTerminated = true ∧
      (sT.jump 1 = (.error .alreadyTerminated, sT) ∧
       sT.branch (c32 1) 1 2 = (.error .alreadyTerminated, sT) ∧
       sT.retVoid = (.error .alreadyTerminated, sT) ∧
       sT.ret (c32 1) = (.error .alreadyTerminated, sT))) ∧
    (b0.block.isTerminated = false ∧
      ((∃ t, b0.jump 1
        = (.ok t, ⟨⟨b0.block.parent, b0.block.instructions, some t⟩,
            b0.anchor⟩)) ∧
       (∃ t, b0.branch (c32 1) 1 2
        = (.ok t, ⟨⟨b0.block.parent, b0.block.instructions, some t⟩,
            b0.anchor⟩)) ∧
       (∃ t, b0.retVoid
        = (.ok t, ⟨⟨b0.block.parent, b0.block.instructions, some t⟩,
            b0.anchor⟩)) ∧
       (∃ t, b0.ret (c32 1)
        = (.ok t, ⟨⟨b0.block.parent, b0.block.instructions, some t⟩,
            b0.anchor⟩)))) :=
  ⟨⟨rfl, (terminator_ops_single_shot sT 1 1 2 (c32 1) (c32 1)).1 rfl⟩,
   ⟨rfl, (terminator_ops_single_shot b0 1 1 2 (c32 1) (c32 1)).2 rfl⟩⟩

/-- Counterexample to C1 as stated: starting from the open empty block,
`jump` succeeds and terminates the block, yet a subsequent `add` on
that block does not fail — it succeeds and inserts its instruction into
the supposedly closed block, because the insertion primitive never
consults the terminator. -/
theorem add_after_jump_cex :
    (b0.jump 1).1 = .ok (Terminator 0 "br" [Value.blockRef 1]) ∧
    (b0.jump 1).2.block.isTerminated = true ∧
    (b0.jump 1).2.block.instructions = [] ∧
    ((b0.jump 1).2.add (c32 1) (c32 2) "").1
      = .ok (Value.instruction 0 (some (Ty.int 32)) "add"
          [c32 1, c32 2] "") ∧
    ((b0.jump 1).2.add (c32 1) (c32 2) "").2.block.instructions
      = [Value.instruction 0 (some (Ty.int 32)) "add" [c32 1, c32 2] ""] := by
  decide

/-- C1 amended: once a terminator is set the block is closed for the
terminator operations only (a second `jump` fails with
`AlreadyTerminatedError` and changes nothing), but the instruction
constructors do not check the terminator: after a successful `jump`,
an `add` with equal operand types still succeeds and extends the
block's instruction sequence by one. -/
theorem add_ignores_terminator (s : IRBuilder) (target : Nat)
    (lhs rhs : Value) (nm : String)
    (hopen : s.block.isTerminated = false) (ht : lhs.type = rhs.type) :
    ∃ t s1, s.jump target = (.ok t, s1) ∧
      s1.block.isTerminated = true ∧
      (∀ target2, s1.jump target2 = (.error .alreadyTerminated, s1)) ∧
      s1.block.instructions = s.block.instructions ∧
      (s1.add lhs rhs nm).1
        = .ok (Value.instruction s1.function lhs.type "add" [lhs, rhs] nm) ∧
      (s1.add lhs rhs nm).2.block.instructions.length
        = s.block.instructions.length + 1 := by
  refine ⟨Terminator s.function "br" [Value.blockRef target],
    ⟨⟨s.block.parent, s.block.instructions,
      some (Terminator s.function "br" [Value.blockRef target])⟩, s.anchor⟩,
    ?_, rfl, ?_, rfl, ?_, ?_⟩
  · rw [IRBuilder.jump, IRBuilder.setTerminator, if_neg (by simp [hopen])]
  · intro target2
    simp [IRBuilder.jump, IRBuilder.setTerminator, Block.isTerminated]
  · simp only [IRBuilder.add, IRBuilder.binop]
    rw [if_pos ht]
  · simp only [IRBuilder.add, IRBuilder.binop]
    rw [if_pos ht]
    simp only [IRBuilder.insertInstr, pyInsertAt_length]

theorem add_ignores_terminator_witness :
    b0.block.isTerminated = false ∧ (c32 1).type = (c32 2).type ∧
    ∃ t s1, b0.jump 1 = (.ok t, s1) ∧
      s1.block.isTerminated = true ∧
      (∀ target2, s1.jump target2 = (.error .alreadyTerminated, s1)) ∧
      s1.block.instructions = b0.block.instructions ∧
      (s1.add (c32 1) (c32 2) "").1
        = .ok (Value.instruction s1.function (c32 1).type "add"
            [c32 1, c32 2] "") ∧
      (s1.add (c32 1) (c32 2) "").2.block.instructions.length
        = b0.block.instructions.length + 1 :=
  ⟨rfl, rfl, add_ignores_terminator b0 1 (c32 1) (c32 2) "" rfl rfl⟩

/-- C8: the insertion primitive places the new instruction into the
current block's instruction sequence at index `anchor` (splitting the
sequence there) and then advances the anchor by one; consequently,
after `position_at_end(block)`, three sequential constructor calls
append their three instructions at the tail of the block in call order
with no gaps. -/
theorem insert_appends_in_order (s : IRBuilder) (b : Block)
    (x1 y1 x2 y2 x3 y3 : Value) (n1 n2 n3 : String)
    (h1 : x1.type = y1.type) (h2 : x2.type = y2.type)
    (h3 : x3.type = y3.type) :
    (∀ i : Value,
      (s.insertInstr i).block.instructions
        = s.block.instructions.take s.anchor
          ++ i :: s.block.instructions.drop s.anchor ∧
      (s.insertInstr i).anchor = s.anchor + 1) ∧
    ∃ i1 i2 i3 s1 s2 s3,
      (s.positionAtEnd b).add x1 y1 n1 = (.ok i1, s1) ∧
      s1.add x2 y2 n2 = (.ok i2, s2) ∧
      s2.add x3 y3 n3 = (.ok i3, s3) ∧
      s3.block.instructions = b.instructions ++ [i1, i2, i3] := by
  refine ⟨fun i => ⟨rfl, rfl⟩, ?_⟩
  obtain ⟨i1, e1⟩ := add_at_end (s.positionAtEnd b) x1 y1 n1 h1 rfl
  obtain ⟨i2, e2⟩ := add_at_end
    ⟨⟨b.parent, b.instructions ++ [i1], b.terminator⟩,
     b.instructions.length + 1⟩ x2 y2 n2 h2 (by simp)
  obtain ⟨i3, e3⟩ := add_at_end
    ⟨⟨b.parent, (b.instructions ++ [i1]) ++ [i2], b.terminator⟩,
     b.instructions.length + 1 + 1⟩ x3 y3 n3 h3 (by simp)
  refine ⟨i1, i2, i3, _, _, _, e1, e2, e3, ?_⟩
  simp

theorem insert_appends_in_order_witness :
    ∃ i1 i2 i3 s1 s2 s3,
      (b0.positionAtEnd blkE).add (c32 1) (c32 2) "a" = (.ok i1, s1) ∧
      s1.add (c32 3) (c32 4) "b" = (.ok i2, s2) ∧
      s2.add (c32 5) (c32 6) "c" = (.ok i3, s3) ∧
      s3.block.instructions = blkE.instructions ++ [i1, i2, i3] :=
  (insert_appends_in_order b0 blkE (c32 1) (c32 2) (c32 3) (c32 4)
    (c32 5) (c32 6) "a" "b" "c" rfl rfl rfl).2

/-- Counterexample to C5 as stated: `position_before` does not set the
cursor's block to the instruction's parent block.  `iB` belongs to
`blkB`, the cursor of `sA` sits on `blkA`, and after
`position_before(iB)` (and `position_after(iB)`) the cursor still sits
on `blkA`, which is a different block from `blkB`. -/
theorem position_before_block_cex :
    iB ∈ blkB.instructions ∧
    (sA.positionBefore iB).block = blkA ∧
    (sA.positionAfter iB).block = blkA ∧
    blkA ≠ blkB := by
  decide

/-- C5 amended: neither repositioning call changes the cursor's block.
For an instruction found at index `idx` of the cursor's current block,
`position_before` sets the anchor to `max(0, idx - 1)` (natural
subtraction) and `position_after` sets it to
`min(idx + 1, len(instructions))`. -/
theorem position_before_after_anchor (s : IRBuilder) (instr : Value)
    (idx : Nat) (h : find s.block.instructions instr = Int.ofNat idx) :
    (s.positionBefore instr).block = s.block ∧
    (s.positionBefore instr).anchor = idx - 1 ∧
    (s.positionAfter instr).block = s.block ∧
    (s.positionAfter instr).anchor
      = min (idx + 1) s.block.instructions.length := by
  refine ⟨rfl, ?_, rfl, ?_⟩
  · show (max 0 (find s.block.instructions instr - 1)).toNat = idx - 1
    rw [h]
    simp only [Int.ofNat_eq_coe]
    rcases idx with _ | n
    · decide
    · rw [max_eq_right (by omega : (0 : Int) ≤ (↑(n + 1) : Int) - 1)]
      omega
  · show (min (find s.block.instructions instr + 1)
        (Int.ofNat s.block.instructions.length)).toNat
      = min (idx + 1) s.block.instructions.length
    rw [h]
    simp only [Int.ofNat_eq_coe]
    rcases le_or_lt (idx + 1) s.block.instructions.length with h' | h'
    · rw [min_eq_left (by omega :
          (↑idx : Int) + 1 ≤ (↑s.block.instructions.length : Int)),
        min_eq_left h']
      omega
    · rw [min_eq_right (by omega :
          (↑s.block.instructions.length : Int) ≤ (↑idx : Int) + 1),
        min_eq_right (by omega : s.block.instructions.length ≤ idx + 1)]
      omega

theorem position_before_after_anchor_witness :
    find sC.block.instructions iB = Int.ofNat 1 ∧
    ((sC.positionBefore iB).block = sC.block ∧
     (sC.positionBefore iB).anchor = 1 - 1 ∧
     (sC.positionAfter iB).block = sC.block ∧
     (sC.positionAfter iB).anchor
       = min (1 + 1) sC.block.instructions.length) :=
  ⟨by decide, position_before_after_anchor sC iB 1 (by decide)⟩

/-- Counterexample to C6 as stated: for an instruction not present in
the cursor's block, neither `position_before` nor `position_after`
fails with a NotFound error; `find` yields the -1 sentinel and the
cursor is silently repositioned — here the anchor moves from 2 to 0
while the block stays in place. -/
theorem position_notfound_cex :
    c8 5 ∉ sD.block.instructions ∧
    find sD.block.instructions (c8 5) = -1 ∧
    sD.anchor = 2 ∧
    sD.positionBefore (c8 5) = ⟨sD.block, 0⟩ ∧
    sD.positionAfter (c8 5) = ⟨sD.block, 0⟩ := by
  decide

/-- C6 amended: `position_before`/`position_after` given an instruction
absent from the cursor's block do not fail: `find` returns the -1
sentinel, and both calls silently reposition the cursor to anchor 0 of
the unchanged current block. -/
theorem position_notfound_silent (s : IRBuilder) (instr : Value)
    (h : instr ∉ s.block.instructions) :
    s.positionBefore instr = ⟨s.block, 0⟩ ∧
    s.positionAfter instr = ⟨s.block, 0⟩ := by
  have hf : find s.block.instructions instr = -1 := find_not_mem _ _ h
  have h1 : (max 0 (find s.block.instructions instr - 1)).toNat = 0 := by
    rw [hf]
    decide
  have h2 : (min (find s.block.instructions instr + 1)
      (Int.ofNat s.block.instructions.length)).toNat = 0 := by
    rw [hf]
    simp only [Int.ofNat_eq_coe]
    rw [min_eq_left (by omega :
        (-1 : Int) + 1 ≤ (↑s.block.instructions.length : Int))]
    decide
  refine ⟨?_, ?_⟩
  · show (⟨s.block, (max 0 (find s.block.instructions instr - 1)).toNat⟩ :
      IRBuilder) = ⟨s.block, 0⟩
    rw [h1]
  · show (⟨s.block, (min (find s.block.instructions instr + 1)
        (Int.ofNat s.block.instructions.length)).toNat⟩ : IRBuilder)
      = ⟨s.block, 0⟩
    rw [h2]

theorem position_notfound_silent_witness :
    c8 5 ∉ sD.block.instructions ∧
    (sD.positionBefore (c8 5) = ⟨sD.block, 0⟩ ∧
     sD.positionAfter (c8 5) = ⟨sD.block, 0⟩) :=
  ⟨by decide, position_notfound_silent sD (c8 5) (by decide)⟩

/-- C9: `alloca` count handling — a positive raw integer count `n` is
wrapped into a `Constant` of the fixed 32-bit integer type with value
`n` and stored as the single count operand; a `None` count leaves the
operand slot absent (empty operand list); a Value count is stored as
given; a zero or negative raw integer count fails with
`InvalidArgumentError` and leaves the builder state unchanged. -/
theorem alloca_count_normalization (s : IRBuilder) (typ : Ty)
    (nm : String) :
    (∀ n : Int, 0 < n →
      (s.alloca typ (.int n) nm).1
        = .ok (AllocaInstr s.function typ
            (some (Value.constant (Ty.int 32) n)) nm) ∧
      (AllocaInstr s.function typ
          (some (Value.constant (Ty.int 32) n)) nm).operands
        = [Value.constant (Ty.int 32) n] ∧
      (s.alloca typ (.int n) nm).2
        = s.insertInstr (AllocaInstr s.function typ
            (some (Value.constant (Ty.int 32) n)) nm)) ∧
    ((s.alloca typ .none nm).1
        = .ok (AllocaInstr s.function typ Option.none nm) ∧
     (AllocaInstr s.function typ Option.none nm).operands = []) ∧
    (∀ v : Value,
      (s.alloca typ (.value v) nm).1
        = .ok (AllocaInstr s.function typ (some v) nm) ∧
      (AllocaInstr s.function typ (some v) nm).operands = [v]) ∧
    (∀ n : Int, n ≤ 0 →
      s.alloca typ (.int n) nm = (.error .invalidArgument, s)) := by
  refine ⟨?_, ⟨rfl, rfl⟩, fun v => ⟨rfl, rfl⟩, ?_⟩
  · intro n hn
    refine ⟨?_, rfl, ?_⟩ <;> · simp only [IRBuilder.alloca]
                               rw [if_pos hn]
  · intro n hn
    simp only [IRBuilder.alloca]
    rw [if_neg (by omega)]

theorem alloca_count_normalization_witness :
    (0 < (5 : Int) ∧
      (b0.alloca (Ty.int 8) (.int 5) "").1
        = .ok (AllocaInstr b0.function (Ty.int 8)
            (some (Value.constant (Ty.int 32) 5)) "") ∧
      (AllocaInstr b0.function (Ty.int 8)
          (some (Value.constant (Ty.int 32) 5)) "").operands
        = [Value.constant (Ty.int 32) 5] ∧
      (b0.alloca (Ty.int 8) (.int 5) "").2
        = b0.insertInstr (AllocaInstr b0.function (Ty.int 8)
            (some (Value.constant (Ty.int 32) 5)) "")) ∧
    ((b0.alloca (Ty.int 8) CountArg.none "").1
        = .ok (AllocaInstr b0.function (Ty.int 8) Option.none "") ∧
     (AllocaInstr b0.function (Ty.int 8) Option.none "").operands = []) ∧
    ((b0.alloca (Ty.int 8) (.value (c32 7)) "").1
        = .ok (AllocaInstr b0.function (Ty.int 8) (some (c32 7)) "") ∧
     (AllocaInstr b0.function (Ty.int 8) (some (c32 7)) "").operands
       = [c32 7]) ∧
    ((0 : Int) ≤ 0 ∧
      b0.alloca (Ty.int 8) (.int 0) "" = (.error .invalidArgument, b0)) :=
  ⟨⟨by decide, (alloca_count_normalization b0 (Ty.int 8) "").1 5 (by decide)⟩,
   (alloca_count_normalization b0 (Ty.int 8) "").2.1,
   (alloca_count_normalization b0 (Ty.int 8) "").2.2.1 (c32 7),
   ⟨by decide,
    (alloca_count_normalization b0 (Ty.int 8) "").2.2.2 0 (by decide)⟩⟩
